import Mathlib

/-!
Verification development for the hbbft DKG transcript generator
(`hbbft_config_generator/src/keygen_history_helpers.rs`).

The file embeds, as executable Lean definitions, the two functions of that
module — `generate_keygens` and `key_sync_history_data` — together with the
`KeyPairWrapper` encryption adapter.  The underlying threshold-cryptography
engine (`hbbft::sync_key_gen::SyncKeyGen`), the address derivation
(`ethkey::public_to_address`), the binary codec (`bincode`) and the ECIES
primitive (`ethkey::crypto::ecies`) are external collaborators: they are
modelled abstractly (as parameters, or from the spec where noted), exactly as
the specification treats them ("consumed as an opaque capability").

Rust panics (`unwrap`, `expect`, explicit `panic!`) are modelled as
`Except.error ()`: a panic aborts the whole computation and yields no output.
-/

/-- Validator public keys (`ethkey::Public`), modelled as an abstract totally
ordered identifier. -/
abbrev Pub := Nat

/-- Derived addresses (`ethkey::Address`). -/
abbrev Address := Nat

/-- Opaque fault reasons carried by the `Invalid` outcome variants. -/
abbrev Fault := Nat

/-- `KeyPairWrapper { public, secret }` from the source: a validator's key
material, wrapped for the DKG engine. -/
structure KeyPairWrapper where
  public : Pub
  secret : Nat
deriving DecidableEq, Repr

/-- `hbbft::sync_key_gen::PartOutcome`: the result of a generator validating a
received `Part`; `Valid` optionally carries an `Ack`, `Invalid` carries a
fault. `A` is the opaque type of `Ack` messages. -/
inductive PartOutcome (A : Type) where
  | Valid : Option A → PartOutcome A
  | Invalid : Fault → PartOutcome A
deriving DecidableEq, Repr

/-- `hbbft::sync_key_gen::AckOutcome`: the result of a generator validating a
received `Ack`. -/
inductive AckOutcome where
  | Valid : AckOutcome
  | Invalid : Fault → AckOutcome
deriving DecidableEq, Repr

/-- Modelled from the spec: the opaque threshold-cryptography engine behind a
generator ("create a generator", "submit a Part, get an outcome", "submit an
Ack, get an outcome").  `S` is the opaque internal commitment/polynomial
state, `P` the type of `Part` messages, `A` the type of `Ack` messages and `R`
the state of the threaded randomness source.  Each operation may fail
(`Except.error`, the `Err` side of the Rust `Result`, unwrapped — hence
panicking — at every call site in the source); `newInner` and
`handlePartInner` additionally consume randomness, mirroring the `&mut rng`
arguments, while `handle_ack` takes none in the source.  `handlePartInner`
and `handleAckInner` receive the generator's own identity and the sender's
identity and return the updated internal state. -/
structure SyncKeyGenEngine (S P A R : Type) where
  newInner : Pub → KeyPairWrapper → List (Pub × KeyPairWrapper) → Nat → R →
    Except Unit (S × Option P) × R
  handlePartInner : S → Pub → Pub → P → R → Except Unit (PartOutcome A) × S × R
  handleAckInner : S → Pub → Pub → A → Except Unit AckOutcome × S

/-- Modelled from the spec: per-validator DKG protocol state ("Generator —
owning validator's identity and secret capability; reference to the
ValidatorSet; internal commitment/polynomial state (opaque)").  The owning
identity is the `our_id` the source reads back via `s.our_id()`; the engine
state is opaque. -/
structure SyncKeyGen (S : Type) where
  our_id : Pub
  inner : S
deriving DecidableEq, Repr

section Generator

variable {S P A R : Type} (E : SyncKeyGenEngine S P A R)

/-- `SyncKeyGen::new(our_id, kp, pub_keys, threshold, rng)`: constructs the
generator bound to `ourId` together with its optional `Part`.  The source
unwraps the `Result` (panic on `Err`). -/
def SyncKeyGen.new (ourId : Pub) (kp : KeyPairWrapper)
    (pubKeys : List (Pub × KeyPairWrapper)) (t : Nat) (r : R) :
    Except Unit (SyncKeyGen S × Option P) × R :=
  match E.newInner ourId kp pubKeys t r with
  | (.ok (s, op), r') => (.ok (⟨ourId, s⟩, op), r')
  | (.error e, r') => (.error e, r')

/-- `s.handle_part(sender_id, part, rng)`: validates a received `Part`,
mutating the generator's internal state and consuming randomness. -/
def SyncKeyGen.handle_part (g : SyncKeyGen S) (sender : Pub) (p : P) (r : R) :
    Except Unit (PartOutcome A) × SyncKeyGen S × R :=
  match E.handlePartInner g.inner g.our_id sender p r with
  | (res, s', r') => (res, ⟨g.our_id, s'⟩, r')

/-- `s.handle_ack(sender_id, ack)`: validates a received `Ack`, mutating the
generator's internal state. -/
def SyncKeyGen.handle_ack (g : SyncKeyGen S) (sender : Pub) (a : A) :
    Except Unit AckOutcome × SyncKeyGen S :=
  match E.handleAckInner g.inner g.our_id sender a with
  | (res, s') => (res, ⟨g.our_id, s'⟩)

/-- Round 1 of `generate_keygens` (source lines 43–49): iterate the
`BTreeMap` entries (the list argument is the map's sorted entry sequence),
construct each generator with the FULL map `all`, unwrap the construction
`Result` and the optional `Part`, and collect generators and
`(validator, Part)` pairs, threading the randomness source. -/
def round1 (all : List (Pub × KeyPairWrapper)) (t : Nat) :
    List (Pub × KeyPairWrapper) → R →
    Except Unit (List (SyncKeyGen S) × List (Pub × P) × R)
  | [], r => .ok ([], [], r)
  | (n, kp) :: rest, r =>
    match SyncKeyGen.new E n kp all t r with
    | (.error _, _) => .error ()
    | (.ok (g, op), r') =>
      match op with
      | none => .error ()
      | some p =>
        match round1 all t rest r' with
        | .error _ => .error ()
        | .ok (gens, ps, r'') => .ok (g :: gens, (n, p) :: ps, r'')

/-- Inner loop of round 2: one generator handles every collected `Part` in
order, threading its own mutated state and the randomness source, and pairing
each outcome with `s.our_id()` (the HANDLING generator's identity).  The
`Result` of each `handle_part` call is unwrapped (panic on `Err`); the
outcome itself — `Valid` or `Invalid` — is stored unexamined. -/
def handlePartsOne (g : SyncKeyGen S) :
    List (Pub × P) → R →
    Except Unit (SyncKeyGen S × List (Pub × PartOutcome A) × R)
  | [], r => .ok (g, [], r)
  | (n, p) :: rest, r =>
    match SyncKeyGen.handle_part E g n p r with
    | (.error _, _, _) => .error ()
    | (.ok o, g', r') =>
      match handlePartsOne g' rest r' with
      | .error _ => .error ()
      | .ok (g'', os, r'') => .ok (g'', (g.our_id, o) :: os, r'')

/-- Round 2 of `generate_keygens` (source lines 52–65): every generator, in
order, handles every `Part`; the flat list of
`(handling generator identity, PartOutcome)` pairs is collected
generator-major, part-minor. -/
def round2 (gens : List (SyncKeyGen S)) (parts : List (Pub × P)) (r : R) :
    Except Unit (List (SyncKeyGen S) × List (Pub × PartOutcome A) × R) :=
  match gens with
  | [] => .ok ([], [], r)
  | g :: gs =>
    match handlePartsOne E g parts r with
    | .error _ => .error ()
    | .ok (g', os, r') =>
      match round2 gs parts r' with
      | .error _ => .error ()
      | .ok (gs', oss, r'') => .ok (g' :: gs', os ++ oss, r'')

/-- Inner loop of round 3: one generator processes the whole collected
outcome list.  Mirrors the source's match (lines 72–75): a `Valid(Some ack)`
entry is fed to `handle_ack` (its `Result` unwrapped), a `Valid(None)` entry
panics at `a.as_ref().unwrap()`, an `Invalid` entry hits the
`panic!("Expected Part Outcome to be valid")` arm. -/
def handleAcksOne (g : SyncKeyGen S) :
    List (Pub × PartOutcome A) →
    Except Unit (SyncKeyGen S × List AckOutcome)
  | [] => .ok (g, [])
  | (n, o) :: rest =>
    match o with
    | .Valid (some a) =>
      match SyncKeyGen.handle_ack E g n a with
      | (.error _, _) => .error ()
      | (.ok ao, g') =>
        match handleAcksOne g' rest with
        | .error _ => .error ()
        | .ok (g'', aos) => .ok (g'', ao :: aos)
    | .Valid none => .error ()
    | .Invalid _ => .error ()

/-- Round 3 of `generate_keygens` (source lines 68–78): every generator, in
order, processes the collected outcome list; the flat list of `AckOutcome`s
is collected. -/
def round3 (gens : List (SyncKeyGen S)) (os : List (Pub × PartOutcome A)) :
    Except Unit (List (SyncKeyGen S) × List AckOutcome) :=
  match gens with
  | [] => .ok ([], [])
  | g :: gs =>
    match handleAcksOne E g os with
    | .error _ => .error ()
    | .ok (g', aos) =>
      match round3 gs os with
      | .error _ => .error ()
      | .ok (gs', aoss) => .ok (g' :: gs', aos ++ aoss)

/-- Final check of `generate_keygens` (source lines 81–85): panic on the
first `Invalid` `AckOutcome`. -/
def checkAckOutcomes : List AckOutcome → Except Unit Unit
  | [] => .ok ()
  | .Valid :: rest => checkAckOutcomes rest
  | .Invalid _ :: _ => .error ()

/-- `generate_keygens(key_pairs, rng, t)` (source lines 33–88).  The
`key_pairs` argument is the `BTreeMap`'s entry sequence in its canonical
sorted key order.  On success returns the finished generators (state after
round 3), the `(validator, Part)` list from round 1 and the
`(validator, PartOutcome)` list from round 2 — exactly the triple the Rust
function returns. -/
def generate_keygens (kps : List (Pub × KeyPairWrapper)) (r : R) (t : Nat) :
    Except Unit
      (List (SyncKeyGen S) × List (Pub × P) × List (Pub × PartOutcome A)) :=
  match round1 E kps t kps r with
  | .error _ => .error ()
  | .ok (gens, parts, r1) =>
    match round2 E gens parts r1 with
    | .error _ => .error ()
    | .ok (gens2, acks, _r2) =>
      match round3 E gens2 acks with
      | .error _ => .error ()
      | .ok (gens3, ackOutcomes) =>
        match checkAckOutcomes ackOutcomes with
        | .error _ => .error ()
        | .ok _ => .ok (gens3, parts, acks)

end Generator

/-- `BTreeMap::insert` on a sorted association list: overwrite the value when
the key is already present, otherwise insert at the sorted position. -/
def btreeInsert {β : Type} (k : Address) (v : β) :
    List (Address × β) → List (Address × β)
  | [] => [(k, v)]
  | (k', v') :: rest =>
    if k < k' then (k, v) :: (k', v') :: rest
    else if k = k' then (k, v) :: rest
    else (k', v') :: btreeInsert k v rest

/-- `map.entry(k).or_insert(Vec::new()).push(x)` on a sorted association
list: append `x` to the vector stored under `k`, creating an empty vector
first when `k` is absent. -/
def btreeEntryPush (k : Address) (x : List Nat) :
    List (Address × List (List Nat)) → List (Address × List (List Nat))
  | [] => [(k, [x])]
  | (k', v') :: rest =>
    if k < k' then (k, [x]) :: (k', v') :: rest
    else if k = k' then (k', v' ++ [x]) :: rest
    else (k', v') :: btreeEntryPush k x rest

/-- `KeyGenHistoryData { parts, acks }` from the source: the transcript
document, with both `BTreeMap`s modelled as sorted association lists;
serialized payloads are byte lists. -/
structure KeyGenHistoryData where
  parts : List (Address × List Nat)
  acks : List (Address × List (List Nat))
deriving DecidableEq, Repr

/-- The operational metrics `key_sync_history_data` reports on its
observability channel (the `println!` lines, in particular the final CSV
line `num_parts, num_acks, parts_total_bytes, acks_total_bytes, total`). -/
structure KeyGenMetrics where
  num_parts : Nat
  num_acks : Nat
  parts_total_bytes : Nat
  acks_total_bytes : Nat
  total_bytes : Nat
deriving DecidableEq, Repr

section Encoder

variable {P A : Type}

/- The encoder is parametrised by the external collaborators the spec keeps
out of scope: `public_to_address` (address derivation, an arbitrary one-way
transform, hence not assumed injective) and the binary codec
(`bincode::serialize` for `Part` and for `Ack`, total here since the spec's
codec contract is total on well-formed values and the source treats a codec
failure as an invariant violation). -/
variable (public_to_address : Pub → Address) (serPart : P → List Nat)
variable (serAck : A → List Nat)

/-- First loop of `key_sync_history_data` (source lines 129–134): serialize
every `Part`, accumulate its byte length and the running count, and insert it
into the `parts` map keyed by the issuing validator's derived address (a
plain `BTreeMap::insert`: a later entry under the same address overwrites an
earlier one).  Returns (map, total bytes, count). -/
def partsLoop : List (Pub × P) → List (Address × List Nat) → Nat → Nat →
    List (Address × List Nat) × Nat × Nat
  | [], m, tb, n => (m, tb, n)
  | (pubk, p) :: rest, m, tb, n =>
    let s := serPart p
    partsLoop rest (btreeInsert (public_to_address pubk) s m) (tb + s.length)
      (n + 1)

/-- Second loop of `key_sync_history_data` (source lines 135–150): every
outcome must be `Valid` and carry an `Ack` — a `Valid(None)` hits
`panic!("Unexpected valid part outcome without Ack message")` and an
`Invalid` hits `panic!("Expected Part Outcome to be valid")`.  The `Ack` is
serialized, its byte length and the count accumulated, and the bytes appended
under the issuing validator's derived address. -/
def acksLoop : List (Pub × PartOutcome A) →
    List (Address × List (List Nat)) → Nat → Nat →
    Except Unit (List (Address × List (List Nat)) × Nat × Nat)
  | [], m, tb, n => .ok (m, tb, n)
  | (pubk, o) :: rest, m, tb, n =>
    match o with
    | .Valid (some a) =>
      let s := serAck a
      acksLoop rest (btreeEntryPush (public_to_address pubk) s m)
        (tb + s.length) (n + 1)
    | .Valid none => .error ()
    | .Invalid _ => .error ()

/-- `key_sync_history_data(parts, acks)` (source lines 115–174).  On success
it returns the transcript document together with the reported metrics; the
source additionally JSON-encodes the document (`serde_json::to_string`), a
black-box text codec per the spec, so the document itself stands for the
returned transcript string. -/
def key_sync_history_data (parts : List (Pub × P))
    (acks : List (Pub × PartOutcome A)) :
    Except Unit (KeyGenHistoryData × KeyGenMetrics) :=
  let pr := partsLoop public_to_address serPart parts [] 0 0
  match acksLoop public_to_address serAck acks [] 0 0 with
  | .error _ => .error ()
  | .ok (am, atb, na) =>
    .ok (⟨pr.1, am⟩, ⟨pr.2.2, na, pr.2.1, atb, pr.2.1 + atb⟩)

end Encoder

/-- Modelled from the spec: the ECIES primitive
(`ethkey::crypto::ecies::encrypt`, code of this repository not under `src/`).
Per the spec it is an "ECIES-style" asymmetric scheme: it generates a fresh
ephemeral key pair from entropy it obtains itself (the source passes it no
randomness source), and the ciphertext carries the ephemeral public key
alongside the sealed message and the authentication data.  The entropy the
primitive consumes is made an explicit `ambient` argument, as a shallow
embedding must for an ambient effect; the ciphertext's head is the ephemeral
public key, which key generation derives injectively from that entropy. -/
def ecies_encrypt (pub : Pub) (auth msg : List Nat) (ambient : Nat) :
    List Nat :=
  ambient :: (msg.map fun b => b + pub + ambient) ++ auth

/-- `impl PublicKey for KeyPairWrapper`, `encrypt` (source lines 17–23): the
adapter receives the caller's randomness source as `_rng` and IGNORES it,
calling `ecies::encrypt(&self.public, b"", msg)`; the primitive's entropy is
the ambient entropy `ambient`, not the supplied source.  `rng` models the
state of the supplied randomness source. -/
def KeyPairWrapper.encrypt (kp : KeyPairWrapper) (msg : List Nat) (_rng : Nat)
    (ambient : Nat) : List Nat :=
  ecies_encrypt kp.public [] msg ambient

/-- A concrete honest engine instance (used to instantiate theorems): every
construction succeeds with a `Part`, every `handle_part` outcome is
`Valid(Some ack)` and every `handle_ack` outcome is `Valid`. -/
def trivEngine : SyncKeyGenEngine Unit Unit Unit Unit where
  newInner := fun _ _ _ _ r => (.ok ((), some ()), r)
  handlePartInner := fun s _ _ _ r => (.ok (.Valid (some ())), s, r)
  handleAckInner := fun s _ _ _ => (.ok .Valid, s)

/-- A concrete engine instance whose every `handle_part` outcome is
`Invalid`. -/
def invEngine : SyncKeyGenEngine Unit Unit Unit Unit where
  newInner := fun _ _ _ _ r => (.ok ((), some ()), r)
  handlePartInner := fun s _ _ _ r => (.ok (.Invalid 0), s, r)
  handleAckInner := fun s _ _ _ => (.ok .Valid, s)

/-- A concrete engine instance whose every `handle_part` outcome is `Valid`
but carries no `Ack`. -/
def noneEngine : SyncKeyGenEngine Unit Unit Unit Unit where
  newInner := fun _ _ _ _ r => (.ok ((), some ()), r)
  handlePartInner := fun s _ _ _ r => (.ok (.Valid none), s, r)
  handleAckInner := fun s _ _ _ => (.ok .Valid, s)

/-- A concrete engine instance whose every `handle_ack` outcome is
`Invalid`. -/
def invAckEngine : SyncKeyGenEngine Unit Unit Unit Unit where
  newInner := fun _ _ _ _ r => (.ok ((), some ()), r)
  handlePartInner := fun s _ _ _ r => (.ok (.Valid (some ())), s, r)
  handleAckInner := fun s _ _ _ => (.ok (.Invalid 0), s)

/-- The two-validator key list used to instantiate theorems. -/
def kps2 : List (Pub × KeyPairWrapper) := [(0, ⟨0, 0⟩), (1, ⟨1, 1⟩)]

/-- The one-validator key list used to instantiate theorems. -/
def kps1 : List (Pub × KeyPairWrapper) := [(0, ⟨0, 0⟩)]

section GeneratorLemmas

variable {S P A R : Type} {E : SyncKeyGenEngine S P A R}

/-- A successfully constructed generator is bound to the identity it was
constructed with. -/
theorem new_ok_our_id {n : Pub} {kp : KeyPairWrapper}
    {all : List (Pub × KeyPairWrapper)} {t : Nat} {r r' : R}
    {g : SyncKeyGen S} {op : Option P}
    (h : SyncKeyGen.new E n kp all t r = (.ok (g, op), r')) : g.our_id = n := by
  unfold SyncKeyGen.new at h
  split at h
  · simp only [Prod.mk.injEq, Except.ok.injEq] at h
    obtain ⟨⟨hg, _⟩, _⟩ := h
    exact hg ▸ rfl
  · simp at h

/-- Round 1 structure: on success, the `(validator, Part)` list and the
generator list each have one entry per input entry, in input order, carrying
the input identities. -/
theorem round1_ok {all : List (Pub × KeyPairWrapper)} {t : Nat} :
    ∀ {l : List (Pub × KeyPairWrapper)} {r r' : R} {gens : List (SyncKeyGen S)}
      {ps : List (Pub × P)},
      round1 E all t l r = .ok (gens, ps, r') →
      ps.map Prod.fst = l.map Prod.fst ∧
      gens.map SyncKeyGen.our_id = l.map Prod.fst ∧
      gens.length = l.length ∧ ps.length = l.length := by
  intro l
  induction l with
  | nil =>
    intro r r' gens ps h
    simp only [round1, Except.ok.injEq, Prod.mk.injEq] at h
    obtain ⟨h1, h2, _⟩ := h
    subst h1; subst h2; simp
  | cons hd tl ih =>
    intro r r' gens ps h
    obtain ⟨n, kp⟩ := hd
    rw [round1] at h
    split at h
    · exact absurd h (by simp)
    · rename_i g op r1 hnew
      split at h
      · exact absurd h (by simp)
      · rename_i p
        split at h
        · exact absurd h (by simp)
        · rename_i gens0 ps0 r0 hrec
          simp only [Except.ok.injEq, Prod.mk.injEq] at h
          obtain ⟨h1, h2, _⟩ := h
          subst h1; subst h2
          obtain ⟨i1, i2, i3, i4⟩ := ih hrec
          refine ⟨by simp [i1], by simp [i2, new_ok_our_id hnew], by simp [i3],
            by simp [i4]⟩

/-- `handle_part` never changes the generator's identity. -/
theorem handle_part_our_id {g : SyncKeyGen S} {n : Pub} {p : P} {r : R} :
    ((SyncKeyGen.handle_part E g n p r).2.1).our_id = g.our_id := rfl

/-- Round 2 inner loop structure: on success there is one collected pair per
`Part`, every collected identity is the handling generator's, and the
generator keeps its identity. -/
theorem handlePartsOne_ok :
    ∀ {parts : List (Pub × P)} {g : SyncKeyGen S} {r r' : R}
      {g' : SyncKeyGen S} {os : List (Pub × PartOutcome A)},
      handlePartsOne E g parts r = .ok (g', os, r') →
      os.map Prod.fst = List.replicate parts.length g.our_id ∧
      g'.our_id = g.our_id ∧ os.length = parts.length := by
  intro parts
  induction parts with
  | nil =>
    intro g r r' g' os h
    simp only [handlePartsOne, Except.ok.injEq, Prod.mk.injEq] at h
    obtain ⟨h1, h2, _⟩ := h
    subst h1; subst h2; simp
  | cons hd tl ih =>
    intro g r r' g' os h
    obtain ⟨n, p⟩ := hd
    rw [handlePartsOne] at h
    split at h
    · exact absurd h (by simp)
    · rename_i o g2 r2 heq
      split at h
      · exact absurd h (by simp)
      · rename_i g3 os0 r3 hrec
        simp only [Except.ok.injEq, Prod.mk.injEq] at h
        obtain ⟨h1, h2, _⟩ := h
        subst h1; subst h2
        have hg2 : g2.our_id = g.our_id :=
          (congrArg (fun x => x.2.1.our_id) heq).symm
        obtain ⟨i1, i2, i3⟩ := ih hrec
        exact ⟨by simp [i1, hg2, List.replicate_succ], by rw [i2, hg2],
          by simp [i3]⟩

/-- Round 2 structure: on success the collected outcome list has one entry
per (generator, Part) pair, generator-major, each tagged with the handling
generator's identity, and the generator list keeps its length. -/
theorem round2_ok :
    ∀ {gens : List (SyncKeyGen S)} {parts : List (Pub × P)} {r r' : R}
      {gens2 : List (SyncKeyGen S)} {os : List (Pub × PartOutcome A)},
      round2 E gens parts r = .ok (gens2, os, r') →
      os.map Prod.fst =
        List.flatMap (gens.map SyncKeyGen.our_id)
          (fun i => List.replicate parts.length i) ∧
      gens2.length = gens.length ∧
      os.length = gens.length * parts.length := by
  intro gens
  induction gens with
  | nil =>
    intro parts r r' gens2 os h
    simp only [round2, Except.ok.injEq, Prod.mk.injEq] at h
    obtain ⟨h1, h2, _⟩ := h
    subst h1; subst h2; simp
  | cons g gs ih =>
    intro parts r r' gens2 os h
    rw [round2] at h
    split at h
    · exact absurd h (by simp)
    · rename_i g' os1 r1 hone
      split at h
      · exact absurd h (by simp)
      · rename_i gs' oss r2 hrec
        simp only [Except.ok.injEq, Prod.mk.injEq] at h
        obtain ⟨h1, h2, _⟩ := h
        subst h1; subst h2
        obtain ⟨j1, _, j3⟩ := handlePartsOne_ok hone
        obtain ⟨i1, i2, i3⟩ := ih hrec
        refine ⟨?_, by simp [i2], ?_⟩
        · simp [i1, j1, List.flatMap_cons]
        · simp [i3, j3, Nat.succ_mul, Nat.add_comm]

/-- Round 3 inner loop: a collected outcome that is not `Valid` with an `Ack`
makes the loop panic. -/
theorem handleAcksOne_bad {n : Pub} {o : PartOutcome A}
    (hbad : ∀ a, o ≠ PartOutcome.Valid (some a)) :
    ∀ {os : List (Pub × PartOutcome A)} {g : SyncKeyGen S},
      (n, o) ∈ os → handleAcksOne E g os = .error () := by
  intro os
  induction os with
  | nil => intro g h; simp at h
  | cons hd tl ih =>
    intro g hmem
    obtain ⟨m, o'⟩ := hd
    rcases List.mem_cons.mp hmem with hh | ht
    · injection hh with h1 h2
      subst h1; subst h2
      cases o with
      | Valid oa =>
        cases oa with
        | some a => exact absurd rfl (hbad a)
        | none => rfl
      | Invalid f => rfl
    · cases o' with
      | Valid oa =>
        cases oa with
        | some a =>
          rcases hha : SyncKeyGen.handle_ack E g m a with ⟨res, g2⟩
          cases res with
          | error e => simp [handleAcksOne, hha]
          | ok ao => simp [handleAcksOne, hha, ih ht]
        | none => rfl
      | Invalid f => rfl

/-- Round 3: with at least one generator, a collected outcome that is not
`Valid` with an `Ack` makes round 3 panic. -/
theorem round3_bad {n : Pub} {o : PartOutcome A}
    (hbad : ∀ a, o ≠ PartOutcome.Valid (some a))
    {gens : List (SyncKeyGen S)} {os : List (Pub × PartOutcome A)}
    (hne : gens ≠ []) (hmem : (n, o) ∈ os) :
    round3 E gens os = .error () := by
  cases gens with
  | nil => exact absurd rfl hne
  | cons g gs =>
    rw [round3, handleAcksOne_bad hbad hmem]

/-- An `Invalid` `AckOutcome` makes the final check panic. -/
theorem checkAckOutcomes_bad {f : Fault} :
    ∀ {aos : List AckOutcome}, AckOutcome.Invalid f ∈ aos →
      checkAckOutcomes aos = .error () := by
  intro aos
  induction aos with
  | nil => intro h; simp at h
  | cons hd tl ih =>
    intro hmem
    cases hd with
    | Invalid f' => rfl
    | Valid =>
      rcases List.mem_cons.mp hmem with hh | ht
      · exact absurd hh (by simp)
      · rw [checkAckOutcomes, ih ht]

/-- An all-`Valid` `AckOutcome` list passes the final check. -/
theorem checkAckOutcomes_allvalid :
    ∀ {aos : List AckOutcome}, (∀ ao ∈ aos, ao = AckOutcome.Valid) →
      checkAckOutcomes aos = .ok () := by
  intro aos
  induction aos with
  | nil => intro _; rfl
  | cons hd tl ih =>
    intro hall
    have hh : hd = AckOutcome.Valid := hall hd (by simp)
    subst hh
    rw [checkAckOutcomes]
    exact ih fun ao hao => hall ao (by simp [hao])

/-- Success decomposition of `generate_keygens`: a successful run factors
through successful rounds 1–3 and the final check, with the returned `Part`
and outcome lists exactly those of rounds 1 and 2. -/
theorem generate_keygens_ok_elim {kps : List (Pub × KeyPairWrapper)} {r : R}
    {t : Nat} {gens : List (SyncKeyGen S)} {parts : List (Pub × P)}
    {os : List (Pub × PartOutcome A)}
    (h : generate_keygens E kps r t = .ok (gens, parts, os)) :
    ∃ (gens1 : List (SyncKeyGen S)) (r1 : R) (gens2 : List (SyncKeyGen S))
      (r2 : R) (aos : List AckOutcome),
      round1 E kps t kps r = .ok (gens1, parts, r1) ∧
      round2 E gens1 parts r1 = .ok (gens2, os, r2) ∧
      round3 E gens2 os = .ok (gens, aos) ∧
      checkAckOutcomes aos = .ok () := by
  unfold generate_keygens at h
  split at h
  · exact absurd h (by simp)
  · rename_i gens1 parts1 r1 h1
    split at h
    · exact absurd h (by simp)
    · rename_i gens2 os1 r2 h2
      split at h
      · exact absurd h (by simp)
      · rename_i gens3 aos h3
        split at h
        · exact absurd h (by simp)
        · rename_i u h4
          simp only [Except.ok.injEq, Prod.mk.injEq] at h
          obtain ⟨hg, hp, ho⟩ := h
          subst hg; subst hp; subst ho
          exact ⟨gens1, r1, gens2, r2, aos, h1, h2, h3, by cases u; exact h4⟩

/-- A successful round 2 whose outcome list is non-empty came from a
non-empty generator list. -/
theorem round2_ok_ne_nil {gens gens2 : List (SyncKeyGen S)}
    {parts : List (Pub × P)} {r r' : R} {os : List (Pub × PartOutcome A)}
    (h : round2 E gens parts r = .ok (gens2, os, r')) (hos : os ≠ []) :
    gens2 ≠ [] := by
  intro hg2
  obtain ⟨_, hlen, holen⟩ := round2_ok h
  rw [hg2] at hlen
  simp only [List.length_nil] at hlen
  have h0 : gens.length = 0 := hlen.symm
  rw [h0, Nat.zero_mul] at holen
  exact hos (List.eq_nil_of_length_eq_zero holen)

/-- If rounds 1 and 2 complete but some collected outcome is not `Valid`
with an `Ack`, the whole run panics (in round 3). -/
theorem generate_keygens_error_of_bad {kps : List (Pub × KeyPairWrapper)}
    {r r1 r2 : R} {t : Nat} {gens1 gens2 : List (SyncKeyGen S)}
    {parts : List (Pub × P)} {os : List (Pub × PartOutcome A)} {n : Pub}
    {o : PartOutcome A}
    (h1 : round1 E kps t kps r = .ok (gens1, parts, r1))
    (h2 : round2 E gens1 parts r1 = .ok (gens2, os, r2))
    (hbad : ∀ a, o ≠ PartOutcome.Valid (some a)) (hmem : (n, o) ∈ os) :
    generate_keygens E kps r t = .error () := by
  have hne : gens2 ≠ [] := round2_ok_ne_nil h2 (List.ne_nil_of_mem hmem)
  unfold generate_keygens
  rw [h1]
  simp only
  rw [h2]
  simp only
  rw [round3_bad hbad hne hmem]

/-- Round 3 inner loop, honest case: when the engine's `handle_ack` always
returns a `Valid` outcome and every collected part outcome is `Valid` with an
`Ack`, the loop completes and every produced `AckOutcome` is `Valid`. -/
theorem handleAcksOne_allvalid
    (hE : ∀ s own n a, (E.handleAckInner s own n a).1 = .ok AckOutcome.Valid) :
    ∀ {os : List (Pub × PartOutcome A)} {g : SyncKeyGen S},
      (∀ po ∈ os, ∃ a, po.2 = PartOutcome.Valid (some a)) →
      ∃ g' aos, handleAcksOne E g os = .ok (g', aos) ∧
        ∀ ao ∈ aos, ao = AckOutcome.Valid := by
  intro os
  induction os with
  | nil => intro g _; exact ⟨g, [], rfl, by simp⟩
  | cons hd tl ih =>
    intro g hall
    obtain ⟨m, o⟩ := hd
    obtain ⟨a, ha⟩ := hall (m, o) (by simp)
    simp only at ha
    subst ha
    rcases hha : SyncKeyGen.handle_ack E g m a with ⟨res, g2⟩
    have hres : res = .ok AckOutcome.Valid :=
      (congrArg Prod.fst hha).symm.trans (hE g.inner g.our_id m a)
    subst hres
    obtain ⟨g', aos, hrec, haos⟩ :=
      ih (g := g2) fun po hpo => hall po (by simp [hpo])
    refine ⟨g', AckOutcome.Valid :: aos, ?_, ?_⟩
    · simp [handleAcksOne, hha, hrec]
    · intro ao hao
      rcases List.mem_cons.mp hao with hh | ht
      · exact hh
      · exact haos ao ht

/-- Round 3, honest case: completes with all-`Valid` `AckOutcome`s. -/
theorem round3_allvalid
    (hE : ∀ s own n a, (E.handleAckInner s own n a).1 = .ok AckOutcome.Valid)
    {os : List (Pub × PartOutcome A)}
    (hv : ∀ po ∈ os, ∃ a, po.2 = PartOutcome.Valid (some a)) :
    ∀ (gens : List (SyncKeyGen S)),
      ∃ gens' aos, round3 E gens os = .ok (gens', aos) ∧
        ∀ ao ∈ aos, ao = AckOutcome.Valid := by
  intro gens
  induction gens with
  | nil => exact ⟨[], [], rfl, by simp⟩
  | cons g gs ih =>
    obtain ⟨g', aos, hone, haos⟩ := handleAcksOne_allvalid hE hv (g := g)
    obtain ⟨gs', aoss, hrec, haoss⟩ := ih
    refine ⟨g' :: gs', aos ++ aoss, ?_, ?_⟩
    · rw [round3, hone]
      simp only
      rw [hrec]
    · intro ao hao
      rcases List.mem_append.mp hao with hh | ht
      · exact haos ao hh
      · exact haoss ao ht

/-- Honest-completion of the run: when rounds 1 and 2 complete, every
collected outcome is `Valid` with an `Ack` and the engine's `handle_ack`
always returns a `Valid` outcome, `generate_keygens` succeeds and returns
exactly the round-1 `Part` list and the round-2 outcome list. -/
theorem generate_keygens_ok_intro
    (hE : ∀ s own n a, (E.handleAckInner s own n a).1 = .ok AckOutcome.Valid)
    {kps : List (Pub × KeyPairWrapper)} {r r1 r2 : R} {t : Nat}
    {gens1 gens2 : List (SyncKeyGen S)} {parts : List (Pub × P)}
    {os : List (Pub × PartOutcome A)}
    (h1 : round1 E kps t kps r = .ok (gens1, parts, r1))
    (h2 : round2 E gens1 parts r1 = .ok (gens2, os, r2))
    (hv : ∀ po ∈ os, ∃ a, po.2 = PartOutcome.Valid (some a)) :
    ∃ gens3, generate_keygens E kps r t = .ok (gens3, parts, os) := by
  obtain ⟨gens3, aos, h3, hall⟩ := round3_allvalid hE hv gens2
  refine ⟨gens3, ?_⟩
  unfold generate_keygens
  rw [h1]
  simp only
  rw [h2]
  simp only
  rw [h3]
  simp only
  rw [checkAckOutcomes_allvalid hall]

end GeneratorLemmas

/-- The number of bytes a `Valid`-with-`Ack` outcome contributes to the
`acks` byte total (any other shape contributes nothing — it panics). -/
def ackLen {A : Type} (serAck : A → List Nat) : PartOutcome A → Nat
  | .Valid (some a) => (serAck a).length
  | .Valid none => 0
  | .Invalid _ => 0

/-- Whether a `PartOutcome` is `Valid` and carries an `Ack`. -/
def isValidSome {A : Type} : PartOutcome A → Bool
  | .Valid (some _) => true
  | .Valid none => false
  | .Invalid _ => false

section EncoderLemmas

variable {P A : Type} {public_to_address : Pub → Address}
variable {serPart : P → List Nat} {serAck : A → List Nat}

/-- `BTreeMap::insert` adds exactly the inserted key to the key set. -/
theorem btreeInsert_keys {β : Type} (k : Address) (v : β) :
    ∀ (m : List (Address × β)),
      ((btreeInsert k v m).map Prod.fst).toFinset =
        insert k (m.map Prod.fst).toFinset := by
  intro m
  induction m with
  | nil => simp [btreeInsert]
  | cons hd tl ih =>
    obtain ⟨k', v'⟩ := hd
    rw [btreeInsert]
    by_cases h1 : k < k'
    · simp [h1]
    · by_cases h2 : k = k'
      · subst h2
        simp [h1]
      · simp only [if_neg h1, if_neg h2, List.map_cons, List.toFinset_cons, ih]
        exact Finset.Insert.comm k' k _

/-- `entry(k).or_insert(..).push(..)` adds exactly the key to the key set. -/
theorem btreeEntryPush_keys (k : Address) (x : List Nat) :
    ∀ (m : List (Address × List (List Nat))),
      ((btreeEntryPush k x m).map Prod.fst).toFinset =
        insert k (m.map Prod.fst).toFinset := by
  intro m
  induction m with
  | nil => simp [btreeEntryPush]
  | cons hd tl ih =>
    obtain ⟨k', v'⟩ := hd
    rw [btreeEntryPush]
    by_cases h1 : k < k'
    · simp [h1]
    · by_cases h2 : k = k'
      · subst h2
        simp [h1]
      · simp only [if_neg h1, if_neg h2, List.map_cons, List.toFinset_cons, ih]
        exact Finset.Insert.comm k' k _

/-- First encoder loop: the count grows by one per input `Part`, the byte
total by each serialized length, and the key set by each derived address. -/
theorem partsLoop_spec :
    ∀ (l : List (Pub × P)) (m : List (Address × List Nat)) (tb n : Nat),
      (partsLoop public_to_address serPart l m tb n).2.2 = n + l.length ∧
      (partsLoop public_to_address serPart l m tb n).2.1 =
        tb + (l.map fun p => (serPart p.2).length).sum ∧
      ((partsLoop public_to_address serPart l m tb n).1.map
          Prod.fst).toFinset =
        (m.map Prod.fst).toFinset ∪
          (l.map fun p => public_to_address p.1).toFinset := by
  intro l
  induction l with
  | nil => intro m tb n; simp [partsLoop]
  | cons hd tl ih =>
    intro m tb n
    obtain ⟨pubk, p⟩ := hd
    rw [partsLoop]
    obtain ⟨i1, i2, i3⟩ :=
      ih (btreeInsert (public_to_address pubk) (serPart p) m)
        (tb + (serPart p).length) (n + 1)
    refine ⟨by simp [i1]; omega, by simp [i2]; omega, ?_⟩
    rw [i3, btreeInsert_keys]
    simp only [List.map_cons, List.toFinset_cons]
    rw [Finset.insert_union, Finset.union_insert]

/-- Second encoder loop: an outcome that is not `Valid` with an `Ack` makes
the loop panic. -/
theorem acksLoop_bad {pubk : Pub} {o : PartOutcome A}
    (hbad : ∀ a, o ≠ PartOutcome.Valid (some a)) :
    ∀ {l : List (Pub × PartOutcome A)}
      (m : List (Address × List (List Nat))) (tb n : Nat),
      (pubk, o) ∈ l →
      acksLoop public_to_address serAck l m tb n = .error () := by
  intro l
  induction l with
  | nil => intro m tb n h; simp at h
  | cons hd tl ih =>
    intro m tb n hmem
    obtain ⟨m', o'⟩ := hd
    rcases List.mem_cons.mp hmem with hh | ht
    · injection hh with h1 h2
      subst h1; subst h2
      cases o with
      | Valid oa =>
        cases oa with
        | some a => exact absurd rfl (hbad a)
        | none => rfl
      | Invalid f => rfl
    · cases o' with
      | Valid oa =>
        cases oa with
        | some a => exact ih _ _ _ ht
        | none => rfl
      | Invalid f => rfl

/-- Second encoder loop, success case: every input outcome was `Valid` with
an `Ack`; the count grows by one per input, the byte total by each
serialized `Ack` length, and the key set by each derived address. -/
theorem acksLoop_ok :
    ∀ {l : List (Pub × PartOutcome A)}
      {m m' : List (Address × List (List Nat))} {tb n tb' n' : Nat},
      acksLoop public_to_address serAck l m tb n = .ok (m', tb', n') →
      (∀ po ∈ l, ∃ a, po.2 = PartOutcome.Valid (some a)) ∧
      n' = n + l.length ∧
      tb' = tb + (l.map fun po => ackLen serAck po.2).sum ∧
      (m'.map Prod.fst).toFinset =
        (m.map Prod.fst).toFinset ∪
          (l.map fun po => public_to_address po.1).toFinset := by
  intro l
  induction l with
  | nil =>
    intro m m' tb n tb' n' h
    simp only [acksLoop, Except.ok.injEq, Prod.mk.injEq] at h
    obtain ⟨h1, h2, h3⟩ := h
    subst h1; subst h2; subst h3
    simp
  | cons hd tl ih =>
    intro m m' tb n tb' n' h
    obtain ⟨pubk, o⟩ := hd
    cases o with
    | Valid oa =>
      cases oa with
      | some a =>
        rw [acksLoop] at h
        obtain ⟨i0, i1, i2, i3⟩ := ih h
        refine ⟨?_, by simp [i1]; omega, ?_, ?_⟩
        · intro po hpo
          rcases List.mem_cons.mp hpo with hh | ht
          · exact ⟨a, by rw [hh]⟩
          · exact i0 po ht
        · simp only [i2, ackLen, List.map_cons, List.sum_cons]
          omega
        · rw [i3, btreeEntryPush_keys]
          simp only [List.map_cons, List.toFinset_cons]
          rw [Finset.insert_union, Finset.union_insert]
      | none => exact absurd h (by simp [acksLoop])
    | Invalid f => exact absurd h (by simp [acksLoop])

/-- Success decomposition of the encoder: a successful run determines the
document and the metrics from the two loops. -/
theorem key_sync_history_data_ok_elim {parts : List (Pub × P)}
    {acks : List (Pub × PartOutcome A)} {data : KeyGenHistoryData}
    {m : KeyGenMetrics}
    (hok : key_sync_history_data public_to_address serPart serAck parts acks =
      .ok (data, m)) :
    data.parts = (partsLoop public_to_address serPart parts [] 0 0).1 ∧
    m.num_parts = (partsLoop public_to_address serPart parts [] 0 0).2.2 ∧
    m.parts_total_bytes =
      (partsLoop public_to_address serPart parts [] 0 0).2.1 ∧
    acksLoop public_to_address serAck acks [] 0 0 =
      .ok (data.acks, m.acks_total_bytes, m.num_acks) ∧
    m.total_bytes = m.parts_total_bytes + m.acks_total_bytes := by
  unfold key_sync_history_data at hok
  split at hok
  · exact absurd hok (by simp)
  · rename_i am atb na ha
    simp only [Except.ok.injEq, Prod.mk.injEq] at hok
    obtain ⟨hd, hm⟩ := hok
    subst hd; subst hm
    exact ⟨rfl, rfl, rfl, ha, rfl⟩

end EncoderLemmas

/-- Claim C1: for every input validator set (given as the `BTreeMap`'s entry
sequence, sorted strictly by key) and every threshold `t`, a successful run
of `generate_keygens` produces exactly one `Part` per validator: the returned
parts list has the set's length and its sequence of issuing identities is
exactly the set's keys in the set's canonical sorted key order. -/
theorem C1_one_part_per_validator {S P A R : Type}
    {E : SyncKeyGenEngine S P A R} {kps : List (Pub × KeyPairWrapper)} {r : R}
    {t : Nat} {gens : List (SyncKeyGen S)} {parts : List (Pub × P)}
    {os : List (Pub × PartOutcome A)}
    (_hsorted : List.Chain' (fun x y => x < y) (kps.map Prod.fst))
    (hok : generate_keygens E kps r t = .ok (gens, parts, os)) :
    parts.length = kps.length ∧ parts.map Prod.fst = kps.map Prod.fst := by
  obtain ⟨gens1, r1, gens2, r2, aos, h1, _, _, _⟩ :=
    generate_keygens_ok_elim hok
  obtain ⟨i1, _, _, i4⟩ := round1_ok h1
  exact ⟨i4, i1⟩

/-- Witness for C1: a concrete two-validator run with an honest engine; the
sortedness and success hypotheses hold and the conclusion is evaluated. -/
theorem C1_one_part_per_validator_witness :
    ([((0 : Pub), ()), (1, ())] : List (Pub × Unit)).length = kps2.length ∧
    ([((0 : Pub), ()), (1, ())] : List (Pub × Unit)).map Prod.fst =
      kps2.map Prod.fst :=
  C1_one_part_per_validator (by simp [kps2, List.chain'_cons])
    (show generate_keygens trivEngine kps2 () 1 =
        .ok ([⟨0, ()⟩, ⟨1, ()⟩], [(0, ()), (1, ())],
          [(0, .Valid (some ())), (0, .Valid (some ())), (1, .Valid (some ())),
            (1, .Valid (some ()))])
      from rfl)

/-- Claim C2 counterexample: with an engine whose `handle_part` outcome is
always `Invalid` and two validators, the very first `handle_part` call yields
`Invalid`, yet the run does NOT fail at that point: round 2 runs all four
`handle_part` calls to completion and returns all four outcomes (so three
further `handle_part` calls happened after the first `Invalid`), and the run
fails only afterwards, in round 3. -/
theorem C2_counterexample :
    (invEngine.handlePartInner () 0 0 () ()).1 = .ok (.Invalid 0) ∧
    round2 invEngine [⟨0, ()⟩, ⟨1, ()⟩] [((0 : Pub), ()), (1, ())] () =
      .ok ([⟨0, ()⟩, ⟨1, ()⟩],
        [(0, .Invalid 0), (0, .Invalid 0), (1, .Invalid 0), (1, .Invalid 0)],
        ()) ∧
    generate_keygens invEngine kps2 () 0 = .error () :=
  ⟨rfl, rfl, rfl⟩

/-- Claim C2 (amended): an `Invalid` `PartOutcome` in round 2 does make the
run fail, but not at that point and not before round 3: the outcome is stored
unexamined, every remaining `handle_part` call still runs (round 2 completes),
and the failure surfaces when round 3 processes the stored `Invalid` outcome.
Formally: if rounds 1 and 2 completed and some collected outcome is
`Invalid`, the whole run returns an error. -/
theorem C2_invalid_part_fails_in_round3 {S P A R : Type}
    {E : SyncKeyGenEngine S P A R} {kps : List (Pub × KeyPairWrapper)}
    {r r1 r2 : R} {t : Nat} {gens1 gens2 : List (SyncKeyGen S)}
    {parts : List (Pub × P)} {os : List (Pub × PartOutcome A)} {n : Pub}
    {f : Fault}
    (h1 : round1 E kps t kps r = .ok (gens1, parts, r1))
    (h2 : round2 E gens1 parts r1 = .ok (gens2, os, r2))
    (hmem : (n, PartOutcome.Invalid f) ∈ os) :
    generate_keygens E kps r t = .error () :=
  generate_keygens_error_of_bad h1 h2 (fun _ h => PartOutcome.noConfusion h)
    hmem

/-- Witness for the amended C2: a concrete one-validator run whose single
collected outcome is `Invalid`; rounds 1 and 2 complete and the run errors. -/
theorem C2_invalid_part_fails_in_round3_witness :
    round1 invEngine kps1 0 kps1 () = .ok ([⟨0, ()⟩], [(0, ())], ()) ∧
    round2 invEngine [⟨0, ()⟩] [((0 : Pub), ())] () =
      .ok ([⟨0, ()⟩], [(0, PartOutcome.Invalid 0)], ()) ∧
    generate_keygens invEngine kps1 () 0 = .error () :=
  ⟨rfl, rfl, C2_invalid_part_fails_in_round3 rfl rfl (List.mem_singleton.mpr rfl)⟩

/-- Claim C3 counterexample: with an engine whose `handle_part` outcome is
always `Valid` WITHOUT an `Ack` and one validator, the collected outcome list
retains the `Valid(None)` outcome (it is not dropped), and the run fails —
the `Valid`-without-`Ack` outcome by itself aborts the run (at round 3's
`unwrap` of the absent `Ack`), contradicting "continues normally / does not
by itself make the run fail". -/
theorem C3_counterexample :
    round2 noneEngine [⟨0, ()⟩] [((0 : Pub), ())] () =
      .ok ([⟨0, ()⟩], [(0, PartOutcome.Valid none)], ()) ∧
    generate_keygens noneEngine kps1 () 0 = .error () :=
  ⟨rfl, rfl⟩

/-- Claim C3 (amended): a `Valid`-without-`Ack` outcome produces no `Ack`
message, but it is NOT dropped: it is retained in the collected outcome list
like every other outcome (the code keeps whole `(identity, PartOutcome)`
pairs, not only `Ack`-carrying ones), and it DOES by itself make the run
fail — round 3 panics when it processes the absent `Ack`.  Formally: if
rounds 1 and 2 completed and some collected outcome is `Valid none`, the
whole run returns an error. -/
theorem C3_valid_none_fails_run {S P A R : Type}
    {E : SyncKeyGenEngine S P A R} {kps : List (Pub × KeyPairWrapper)}
    {r r1 r2 : R} {t : Nat} {gens1 gens2 : List (SyncKeyGen S)}
    {parts : List (Pub × P)} {os : List (Pub × PartOutcome A)} {n : Pub}
    (h1 : round1 E kps t kps r = .ok (gens1, parts, r1))
    (h2 : round2 E gens1 parts r1 = .ok (gens2, os, r2))
    (hmem : (n, PartOutcome.Valid none) ∈ os) :
    generate_keygens E kps r t = .error () :=
  generate_keygens_error_of_bad h1 h2
    (fun _ h => by
      injection h with h'
      exact Option.noConfusion h')
    hmem

/-- Witness for the amended C3: a concrete one-validator run whose single
collected outcome is `Valid none`; rounds 1 and 2 complete and the run
errors. -/
theorem C3_valid_none_fails_run_witness :
    round1 noneEngine kps1 0 kps1 () = .ok ([⟨0, ()⟩], [(0, ())], ()) ∧
    round2 noneEngine [⟨0, ()⟩] [((0 : Pub), ())] () =
      .ok ([⟨0, ()⟩], [(0, PartOutcome.Valid none)], ()) ∧
    generate_keygens noneEngine kps1 () 0 = .error () :=
  ⟨rfl, rfl, C3_valid_none_fails_run rfl rfl (List.mem_singleton.mpr rfl)⟩

/-- Claim C4 counterexample: with one engine (`noneEngine`) and two
validators, every outcome produced during the run is `Valid` (the four
collected part outcomes are all `Valid none`; no `Invalid` outcome of any
kind is ever produced, as the `countP` conjunct records), yet the run does
NOT succeed: it aborts with an error — refuting "if every outcome is Valid,
the run succeeds". -/
theorem C4_counterexample :
    generate_keygens noneEngine kps2 () 1 = .error () ∧
    round2 noneEngine [⟨0, ()⟩, ⟨1, ()⟩] [((0 : Pub), ()), (1, ())] () =
      .ok ([⟨0, ()⟩, ⟨1, ()⟩],
        [(0, .Valid none), (0, .Valid none), (1, .Valid none),
          (1, .Valid none)], ()) ∧
    List.countP
        (fun po => match po.2 with
          | PartOutcome.Invalid _ => true
          | PartOutcome.Valid _ => false)
        [((0 : Pub), (PartOutcome.Valid none : PartOutcome Unit)),
          (0, .Valid none), (1, .Valid none), (1, .Valid none)] = 0 :=
  ⟨rfl, rfl, rfl⟩

/-- Claim C4 (amended): (i) any `Invalid` outcome aborts the run with no
output — a successful run's collected part outcomes are all `Valid` WITH an
`Ack` (first conjunct), and an `Invalid` `AckOutcome` in round 3 makes the
run error (second conjunct); (ii) the converse needs more than "every
outcome is Valid": if rounds 1 and 2 complete, every collected part outcome
is `Valid` AND carries an `Ack`, and the engine's `handle_ack` always
returns a `Valid` outcome, the run succeeds and returns the generators, the
`(validator, Part)` list and the collected outcome list (third conjunct). -/
theorem C4_outcome_policy :
    (∀ (S P A R : Type) (E : SyncKeyGenEngine S P A R)
       (kps : List (Pub × KeyPairWrapper)) (r : R) (t : Nat)
       (gens : List (SyncKeyGen S)) (parts : List (Pub × P))
       (os : List (Pub × PartOutcome A)),
       generate_keygens E kps r t = .ok (gens, parts, os) →
       ∀ po ∈ os, ∃ a, po.2 = PartOutcome.Valid (some a)) ∧
    (∀ (S P A R : Type) (E : SyncKeyGenEngine S P A R)
       (kps : List (Pub × KeyPairWrapper)) (r r1 r2 : R) (t : Nat)
       (gens1 gens2 gens3 : List (SyncKeyGen S)) (parts : List (Pub × P))
       (os : List (Pub × PartOutcome A)) (aos : List AckOutcome) (f : Fault),
       round1 E kps t kps r = .ok (gens1, parts, r1) →
       round2 E gens1 parts r1 = .ok (gens2, os, r2) →
       round3 E gens2 os = .ok (gens3, aos) →
       AckOutcome.Invalid f ∈ aos →
       generate_keygens E kps r t = .error ()) ∧
    (∀ (S P A R : Type) (E : SyncKeyGenEngine S P A R)
       (kps : List (Pub × KeyPairWrapper)) (r r1 r2 : R) (t : Nat)
       (gens1 gens2 : List (SyncKeyGen S)) (parts : List (Pub × P))
       (os : List (Pub × PartOutcome A)),
       (∀ s own n a, (E.handleAckInner s own n a).1 = .ok AckOutcome.Valid) →
       round1 E kps t kps r = .ok (gens1, parts, r1) →
       round2 E gens1 parts r1 = .ok (gens2, os, r2) →
       (∀ po ∈ os, ∃ a, po.2 = PartOutcome.Valid (some a)) →
       ∃ gens3, generate_keygens E kps r t = .ok (gens3, parts, os)) := by
  refine ⟨?_, ?_, ?_⟩
  · intro S P A R E kps r t gens parts os hok po hpo
    by_contra hno
    push_neg at hno
    obtain ⟨m, o⟩ := po
    obtain ⟨gens1, r1, gens2, r2, aos, h1, h2, h3, _⟩ :=
      generate_keygens_ok_elim hok
    have hne := round2_ok_ne_nil h2 (List.ne_nil_of_mem hpo)
    have hbad : ∀ a, o ≠ PartOutcome.Valid (some a) := fun a h =>
      hno a (by simpa using h)
    rw [round3_bad hbad hne hpo] at h3
    exact Except.noConfusion h3
  · intro S P A R E kps r r1 r2 t gens1 gens2 gens3 parts os aos f h1 h2 h3
      hmem
    unfold generate_keygens
    rw [h1]
    simp only
    rw [h2]
    simp only
    rw [h3]
    simp only
    rw [checkAckOutcomes_bad hmem]
  · intro S P A R E kps r r1 r2 t gens1 gens2 parts os hE h1 h2 hv
    exact generate_keygens_ok_intro hE h1 h2 hv

/-- Witness for the amended C4: conjunct (i) evaluated on an honest
one-validator run, conjunct (ii) on a run whose `handle_ack` outcome is
`Invalid`, conjunct (iii) on the honest run again — each hypothesis
discharged at the concrete input. -/
theorem C4_outcome_policy_witness :
    (∀ po ∈ ([(0, PartOutcome.Valid (some ()))] :
        List (Pub × PartOutcome Unit)),
      ∃ a, po.2 = PartOutcome.Valid (some a)) ∧
    generate_keygens invAckEngine kps1 () 0 = .error () ∧
    (∃ gens3, generate_keygens trivEngine kps1 () 0 =
      .ok (gens3, [(0, ())], [(0, PartOutcome.Valid (some ()))])) := by
  refine ⟨?_, ?_, ?_⟩
  · exact C4_outcome_policy.1 Unit Unit Unit Unit trivEngine kps1 () 0
      [⟨0, ()⟩] [(0, ())] [(0, PartOutcome.Valid (some ()))] rfl
  · exact C4_outcome_policy.2.1 Unit Unit Unit Unit invAckEngine kps1 () () ()
      0 [⟨0, ()⟩] [⟨0, ()⟩] [⟨0, ()⟩] [(0, ())]
      [(0, PartOutcome.Valid (some ()))] [AckOutcome.Invalid 0] 0 rfl rfl rfl
      (List.mem_singleton.mpr rfl)
  · exact C4_outcome_policy.2.2 Unit Unit Unit Unit trivEngine kps1 () () () 0
      [⟨0, ()⟩] [⟨0, ()⟩] [(0, ())] [(0, PartOutcome.Valid (some ()))]
      (fun s own n a => rfl) rfl rfl
      (fun po hpo => ⟨(), by
        rcases List.mem_singleton.mp hpo with h
        rw [h]⟩)

/-- Claim C9: a successful run returns exactly n·n
`(validator, PartOutcome)` pairs — one per ordered (handling generator,
Part) pair, generator-major (each validator's identity repeated n times, in
canonical key order) — and the identity stored in each pair is the HANDLING
generator's (the prospective Ack issuer), not the origin of the handled
`Part`. -/
theorem C9_outcome_grid {S P A R : Type} {E : SyncKeyGenEngine S P A R}
    {kps : List (Pub × KeyPairWrapper)} {r : R} {t : Nat}
    {gens : List (SyncKeyGen S)} {parts : List (Pub × P)}
    {os : List (Pub × PartOutcome A)}
    (hok : generate_keygens E kps r t = .ok (gens, parts, os)) :
    os.length = kps.length * kps.length ∧
    os.map Prod.fst =
      List.flatMap (kps.map Prod.fst)
        (fun i => List.replicate kps.length i) := by
  obtain ⟨gens1, r1, gens2, r2, aos, h1, h2, _, _⟩ :=
    generate_keygens_ok_elim hok
  obtain ⟨_, i2, i3, i4⟩ := round1_ok h1
  obtain ⟨j1, _, j3⟩ := round2_ok h2
  constructor
  · rw [j3, i3, i4]
  · rw [j1, i2, i4]

/-- Witness for C9: the honest two-validator run; 4 = 2·2 outcomes, with
identities [0, 0, 1, 1] — each the handling generator's. -/
theorem C9_outcome_grid_witness :
    ([((0 : Pub), PartOutcome.Valid (some ())), (0, .Valid (some ())),
        (1, .Valid (some ())), (1, .Valid (some ()))] :
      List (Pub × PartOutcome Unit)).length = kps2.length * kps2.length ∧
    ([((0 : Pub), PartOutcome.Valid (some ())), (0, .Valid (some ())),
        (1, .Valid (some ())), (1, .Valid (some ()))] :
      List (Pub × PartOutcome Unit)).map Prod.fst =
      List.flatMap (kps2.map Prod.fst)
        (fun i => List.replicate kps2.length i) :=
  C9_outcome_grid
    (show generate_keygens trivEngine kps2 () 1 =
        .ok ([⟨0, ()⟩, ⟨1, ()⟩], [(0, ()), (1, ())],
          [(0, .Valid (some ())), (0, .Valid (some ())), (1, .Valid (some ())),
            (1, .Valid (some ()))])
      from rfl)

/-- Claim C5: for every input to the Transcript Encoder, if any element of
the `(validator, PartOutcome)` list is `Invalid`, or is `Valid` but carries
no `Ack`, the encoder fails fatally (panic, modelled as an error) and
returns no transcript document. -/
theorem C5_encoder_rejects_bad_outcomes {P A : Type}
    (public_to_address : Pub → Address) (serPart : P → List Nat)
    (serAck : A → List Nat) (parts : List (Pub × P))
    {acks : List (Pub × PartOutcome A)} {pubk : Pub} {o : PartOutcome A}
    (hmem : (pubk, o) ∈ acks) (hbad : ∀ a, o ≠ PartOutcome.Valid (some a)) :
    key_sync_history_data public_to_address serPart serAck parts acks =
      .error () := by
  simp only [key_sync_history_data]
  rw [acksLoop_bad hbad [] 0 0 hmem]

/-- Witness for C5: a concrete `Invalid` outcome in the input makes the
encoder error. -/
theorem C5_encoder_rejects_bad_outcomes_witness :
    ((0 : Pub), (PartOutcome.Invalid 0 : PartOutcome Unit)) ∈
      [((0 : Pub), (PartOutcome.Invalid 0 : PartOutcome Unit))] ∧
    (∀ a : Unit,
      (PartOutcome.Invalid 0 : PartOutcome Unit) ≠
        PartOutcome.Valid (some a)) ∧
    key_sync_history_data (fun x => x) (fun _ : Unit => [])
        (fun _ : Unit => []) [] [(0, PartOutcome.Invalid 0)] = .error () :=
  ⟨List.mem_singleton.mpr rfl, fun _ h => PartOutcome.noConfusion h,
    C5_encoder_rejects_bad_outcomes (fun x => x) (fun _ : Unit => [])
      (fun _ : Unit => []) [] (List.mem_singleton.mpr rfl)
      (fun _ h => PartOutcome.noConfusion h)⟩

/-- Claim C6: on success, the key set of the output document's `parts` map is
exactly the set of derived addresses of the parts input's identities, and
the key set of its `acks` map exactly that of the acks input's identities —
no more, no fewer; and both key sets are unchanged under any permutation of
the two input lists (for any permuted run that also succeeds). -/
theorem C6_key_sets {P A : Type} (public_to_address : Pub → Address)
    (serPart : P → List Nat) (serAck : A → List Nat)
    {parts : List (Pub × P)} {acks : List (Pub × PartOutcome A)}
    {data : KeyGenHistoryData} {m : KeyGenMetrics}
    (hok : key_sync_history_data public_to_address serPart serAck parts acks =
      .ok (data, m)) :
    ((data.parts.map Prod.fst).toFinset =
        (parts.map fun p => public_to_address p.1).toFinset ∧
      (data.acks.map Prod.fst).toFinset =
        (acks.map fun po => public_to_address po.1).toFinset) ∧
    (∀ (parts' : List (Pub × P)) (acks' : List (Pub × PartOutcome A))
       (data' : KeyGenHistoryData) (m' : KeyGenMetrics),
       List.Perm parts parts' → List.Perm acks acks' →
       key_sync_history_data public_to_address serPart serAck parts' acks' =
         .ok (data', m') →
       (data'.parts.map Prod.fst).toFinset =
         (data.parts.map Prod.fst).toFinset ∧
       (data'.acks.map Prod.fst).toFinset =
         (data.acks.map Prod.fst).toFinset) := by
  have base : ∀ {ps : List (Pub × P)} {qs : List (Pub × PartOutcome A)}
      {d : KeyGenHistoryData} {mm : KeyGenMetrics},
      key_sync_history_data public_to_address serPart serAck ps qs =
        .ok (d, mm) →
      (d.parts.map Prod.fst).toFinset =
        (ps.map fun p => public_to_address p.1).toFinset ∧
      (d.acks.map Prod.fst).toFinset =
        (qs.map fun po => public_to_address po.1).toFinset := by
    intro ps qs d mm h
    obtain ⟨hp, _, _, ha, _⟩ := key_sync_history_data_ok_elim h
    constructor
    · rw [hp, (partsLoop_spec ps [] 0 0).2.2]
      simp
    · obtain ⟨_, _, _, hkeys⟩ := acksLoop_ok ha
      simpa using hkeys
  refine ⟨base hok, ?_⟩
  intro parts' acks' data' m' hpp hpa hok'
  obtain ⟨b1, b2⟩ := base hok'
  obtain ⟨a1, a2⟩ := base hok
  constructor
  · rw [b1, a1]
    exact (List.toFinset_eq_of_perm _ _ (List.Perm.map _ hpp)).symm
  · rw [b2, a2]
    exact (List.toFinset_eq_of_perm _ _ (List.Perm.map _ hpa)).symm

/-- Witness for C6: a concrete successful encoder run; its `parts` key set is
evaluated against the derived addresses of the input identities. -/
theorem C6_key_sets_witness :
    key_sync_history_data (fun x => x) (fun n : Nat => [n])
        (fun _ : Unit => [9]) [(3, 5)] [(4, PartOutcome.Valid (some ()))] =
      .ok (⟨[(3, [5])], [(4, [[9]])]⟩, ⟨1, 1, 1, 1, 2⟩) ∧
    ((⟨[(3, [5])], [(4, [[9]])]⟩ : KeyGenHistoryData).parts.map
        Prod.fst).toFinset =
      (([((3 : Pub), (5 : Nat))]).map
        fun p => (fun x => x : Pub → Address) p.1).toFinset :=
  ⟨rfl,
    (C6_key_sets (fun x => x) (fun n : Nat => [n]) (fun _ : Unit => [9])
        (show key_sync_history_data (fun x => x) (fun n : Nat => [n])
            (fun _ : Unit => [9]) [(3, 5)]
            [(4, PartOutcome.Valid (some ()))] =
          .ok (⟨[(3, [5])], [(4, [[9]])]⟩, ⟨1, 1, 1, 1, 2⟩) from rfl)).1.1⟩

/-- Claim C7: on success, the reported `Parts` byte total is the sum of the
binary-encoded lengths of every `Part` entry inserted into `parts` (one
insert per input pair), the reported `Acks` byte total is the sum of the
encoded lengths of every `Ack` appended into `acks`, and the reported grand
total is exactly their sum. -/
theorem C7_byte_totals {P A : Type} (public_to_address : Pub → Address)
    (serPart : P → List Nat) (serAck : A → List Nat)
    {parts : List (Pub × P)} {acks : List (Pub × PartOutcome A)}
    {data : KeyGenHistoryData} {m : KeyGenMetrics}
    (hok : key_sync_history_data public_to_address serPart serAck parts acks =
      .ok (data, m)) :
    m.parts_total_bytes = (parts.map fun p => (serPart p.2).length).sum ∧
    m.acks_total_bytes = (acks.map fun po => ackLen serAck po.2).sum ∧
    m.total_bytes = m.parts_total_bytes + m.acks_total_bytes := by
  obtain ⟨_, _, hb, ha, ht⟩ := key_sync_history_data_ok_elim hok
  refine ⟨?_, ?_, ht⟩
  · rw [hb, (partsLoop_spec parts [] 0 0).2.1]
    simp
  · obtain ⟨_, _, hsum, _⟩ := acksLoop_ok ha
    simpa using hsum

/-- Witness for C7: a concrete successful encoder run; the reported byte
totals are evaluated. -/
theorem C7_byte_totals_witness :
    key_sync_history_data (fun x => x) (fun n : Nat => [n, n])
        (fun _ : Unit => [8, 8, 8]) [(2, 6)]
        [(1, PartOutcome.Valid (some ()))] =
      .ok (⟨[(2, [6, 6])], [(1, [[8, 8, 8]])]⟩, ⟨1, 1, 2, 3, 5⟩) ∧
    (⟨1, 1, 2, 3, 5⟩ : KeyGenMetrics).parts_total_bytes =
      (([((2 : Pub), (6 : Nat))]).map
        fun p => ((fun n : Nat => [n, n]) p.2).length).sum :=
  ⟨rfl,
    (C7_byte_totals (fun x => x) (fun n : Nat => [n, n])
        (fun _ : Unit => [8, 8, 8])
        (show key_sync_history_data (fun x => x) (fun n : Nat => [n, n])
            (fun _ : Unit => [8, 8, 8]) [(2, 6)]
            [(1, PartOutcome.Valid (some ()))] =
          .ok (⟨[(2, [6, 6])], [(1, [[8, 8, 8]])]⟩, ⟨1, 1, 2, 3, 5⟩)
          from rfl)).1⟩

/-- Claim C10: the reported `Part` count is the length of the input parts
list and the reported `Ack` count is the number of `Valid`-with-`Ack`
outcomes in the input outcome list (equivalently, on a completed run, its
length) — NOT the number of entries in the output mappings; in particular
(second conjunct, concrete) two distinct public keys deriving the same
address collapse to a single `parts` entry holding the LATER serialization,
while both are counted (2) and both byte lengths accumulated (1 + 2 = 3). -/
theorem C10_counts :
    (∀ (P A : Type) (public_to_address : Pub → Address)
       (serPart : P → List Nat) (serAck : A → List Nat)
       (parts : List (Pub × P)) (acks : List (Pub × PartOutcome A))
       (data : KeyGenHistoryData) (m : KeyGenMetrics),
       key_sync_history_data public_to_address serPart serAck parts acks =
         .ok (data, m) →
       m.num_parts = parts.length ∧ m.num_acks = acks.length ∧
       m.num_acks = List.countP (fun po => isValidSome po.2) acks) ∧
    key_sync_history_data (fun _ => 0) (fun n : Nat => List.replicate n 7)
        (fun _ : Unit => []) [(0, 1), (1, 2)] [] =
      .ok (⟨[(0, [7, 7])], []⟩, ⟨2, 0, 3, 0, 3⟩) := by
  constructor
  · intro P A public_to_address serPart serAck parts acks data m hok
    obtain ⟨_, hn, _, ha, _⟩ := key_sync_history_data_ok_elim hok
    obtain ⟨hall, hcnt, _, _⟩ := acksLoop_ok ha
    have hlen : m.num_acks = acks.length := by simpa using hcnt
    refine ⟨?_, hlen, ?_⟩
    · rw [hn, (partsLoop_spec parts [] 0 0).1]
      simp
    · rw [hlen]
      symm
      rw [List.countP_eq_length]
      intro po hpo
      obtain ⟨a, hA⟩ := hall po hpo
      simp [isValidSome, hA]
  · rfl

/-- Witness for C10: the counts statement applied to the concrete
address-collision run of the second conjunct. -/
theorem C10_counts_witness :
    (⟨2, 0, 3, 0, 3⟩ : KeyGenMetrics).num_parts =
      ([((0 : Pub), (1 : Nat)), (1, 2)]).length ∧
    (⟨2, 0, 3, 0, 3⟩ : KeyGenMetrics).num_acks =
      ([] : List (Pub × PartOutcome Unit)).length ∧
    (⟨2, 0, 3, 0, 3⟩ : KeyGenMetrics).num_acks =
      List.countP (fun po => isValidSome po.2)
        ([] : List (Pub × PartOutcome Unit)) :=
  C10_counts.1 Nat Unit (fun _ => 0) (fun n => List.replicate n 7)
    (fun _ => []) [(0, 1), (1, 2)] [] ⟨[(0, [7, 7])], []⟩ ⟨2, 0, 3, 0, 3⟩ rfl

/-- Claim C8 counterexample: two `encrypt` calls with THE SAME public key,
the same message and the same supplied-randomness-source state yield
different ciphertexts when the ambient entropy consumed by the underlying
ECIES primitive differs — `encrypt` is not a deterministic function of
(public key, message, randomness-source state), because the adapter ignores
its `_rng` argument and the primitive draws entropy elsewhere. -/
theorem C8_counterexample :
    KeyPairWrapper.encrypt ⟨5, 7⟩ [1, 2] 42 0 ≠
      KeyPairWrapper.encrypt ⟨5, 7⟩ [1, 2] 42 1 := by decide

/-- Claim C8 (amended): `encrypt` draws NO randomness from the supplied
source — the adapter discards its `_rng` argument — so the ciphertext is a
deterministic function of the public key, the message and the ambient
entropy the ECIES primitive consumes, invariant under any change of the
supplied source's state. -/
theorem C8_encrypt_ignores_rng (kp : KeyPairWrapper) (msg : List Nat)
    (r1 r2 amb : Nat) :
    KeyPairWrapper.encrypt kp msg r1 amb =
      KeyPairWrapper.encrypt kp msg r2 amb := rfl
